import Mathlib

/-!
# Verification of the LeadGenerator aggregation and scoring pipeline

This file gives a shallow embedding, in Lean 4, of the core logic of the
LeadGenerator repository (a Next.js lead-generation tool) and proves or
refutes the frozen claims about it.

Embedded source files:
* `src/lib/websiteChecker.js` — website-presence resolver and place-source
  adapter (`searchForWebsite`, `checkBusinessWebsite`, `fetchAllPlaces`,
  `searchBusinesses`);
* `src/app/api/search/route.js` — the search entry point (`POST`);
* `src/lib/storage.js` — lead store helpers (`updateLeadStatus`,
  `calculateLeadScore`);
* `src/app/page.js` — UI-level store operations (`addSelectedToSaved`,
  `handleDeleteProject`).

Modelling conventions:
* JavaScript numbers are modelled as `ℚ` (ratings, score arithmetic) or
  `ℕ`/`ℤ` where the code only ever holds integers; IEEE-754 rounding is
  abstracted away (all quantities involved are small and exact).
* `null`/`undefined`-able string fields are `Option String`; JavaScript
  truthiness of a string value (`null`, `undefined` and `""` are falsy)
  is the predicate `optTruthy`.
* ISO timestamp strings and `Date.now()` values are modelled by a single
  abstract clock value `now : ℕ`; only the identity of the timestamp
  matters to the claims, never its format.
* Network effects (HTTP fetches) are modelled by explicit oracle
  parameters: a probe oracle `net : String → ProbeOutcome` for the domain
  probes, and a list of `PageResponse`s for the paginated upstream
  directory responses.  Functions that perform network calls additionally
  return the list of domains they probed, in call order, so that claims
  about "no probe occurs" are expressible.
* A JavaScript `Map` built from a list of key/value pairs is modelled by
  `jsMapOfEntries`: insertion order of first key occurrence is kept, and
  a later entry with the same key overwrites the stored value (these are
  exactly the ECMAScript `Map` semantics the deduplication code relies
  on).
-/

/-- JavaScript truthiness of a nullable string: `null`/`undefined` (here
`none`) and the empty string are falsy. -/
def optTruthy : Option String → Bool
  | some s => s ≠ ""
  | none => false

/-- JavaScript `a || b` for a nullable string `a` and string default `b`. -/
def jsOrStr (a : Option String) (b : String) : String :=
  match a with
  | some s => if s = "" then b else s
  | none => b

/-- JavaScript `a || null` for a nullable string `a`: collapses the empty
string to `null`. -/
def jsOrNull : Option String → Option String
  | some s => if s = "" then none else some s
  | none => none

section JsMap

variable {κ β : Type} [DecidableEq κ]

/-- One `Map.prototype.set` step on an association list: if the key is
already present its stored value is overwritten in place, otherwise the
pair is appended.  This is how the ECMAScript `Map` constructor treats
each successive entry of its argument. -/
def jsMapSet (m : List (κ × β)) (k : κ) (v : β) : List (κ × β) :=
  if m.any (fun e => e.1 = k) then
    m.map (fun e => if e.1 = k then (k, v) else e)
  else
    m ++ [(k, v)]

/-- `new Map(entries)`: fold `jsMapSet` over the entry list. -/
def jsMapOfEntries (es : List (κ × β)) : List (κ × β) :=
  es.foldl (fun m e => jsMapSet m e.1 e.2) []

/-- `Array.from(new Map(entries).values())`. -/
def jsMapValues (es : List (κ × β)) : List β :=
  (jsMapOfEntries es).map Prod.snd

/-- Lookup in an association list (first entry with the key). -/
def jsGet (m : List (κ × β)) (k : κ) : Option β :=
  (m.find? (fun e => e.1 = k)).map Prod.snd

/-- The value of the last entry of `es` carrying key `k`, if any. -/
def lastAssoc (es : List (κ × β)) (k : κ) : Option β :=
  (es.reverse.find? (fun e => e.1 = k)).map Prod.snd

/-- The keys of an association list, in order. -/
def keysOf (m : List (κ × β)) : List κ := m.map Prod.fst

theorem find?_congr_pred {γ : Type} {p q : γ → Bool} {l : List γ}
    (h : ∀ e ∈ l, p e = q e) : l.find? p = l.find? q := by
  induction l with
  | nil => rfl
  | cons x xs ih =>
    have hx := h x (List.mem_cons_self x xs)
    rcases hpx : p x with _ | _
    · rw [List.find?_cons_of_neg _ (by simp [hpx]),
        List.find?_cons_of_neg _ (by simp [hx ▸ hpx])]
      exact ih (fun e he => h e (List.mem_cons_of_mem x he))
    · rw [List.find?_cons_of_pos _ hpx, List.find?_cons_of_pos _ (hx ▸ hpx)]

theorem find?_append_of_none {γ : Type} {p : γ → Bool} {l₁ l₂ : List γ}
    (h : l₁.find? p = none) : (l₁ ++ l₂).find? p = l₂.find? p := by
  induction l₁ with
  | nil => simp
  | cons x xs ih =>
    rcases hx : p x with _ | _
    · rw [List.find?_cons_of_neg _ (by simp [hx])] at h
      rw [List.cons_append, List.find?_cons_of_neg _ (by simp [hx])]
      exact ih h
    · rw [List.find?_cons_of_pos _ hx] at h
      exact absurd h (by simp)

theorem find?_append_of_some {γ : Type} {p : γ → Bool} {l₁ l₂ : List γ} {x : γ}
    (h : l₁.find? p = some x) : (l₁ ++ l₂).find? p = some x := by
  induction l₁ with
  | nil => simp at h
  | cons y ys ih =>
    rcases hy : p y with _ | _
    · rw [List.find?_cons_of_neg _ (by simp [hy])] at h
      rw [List.cons_append, List.find?_cons_of_neg _ (by simp [hy])]
      exact ih h
    · rw [List.find?_cons_of_pos _ hy] at h
      rw [List.cons_append, List.find?_cons_of_pos _ hy]
      exact h

theorem keysOf_jsMapSet (m : List (κ × β)) (k : κ) (v : β) :
    keysOf (jsMapSet m k v) =
      if k ∈ keysOf m then keysOf m else keysOf m ++ [k] := by
  unfold jsMapSet keysOf
  by_cases h : k ∈ m.map Prod.fst
  · have hany : (m.any fun e => decide (e.1 = k)) = true := by
      rcases List.mem_map.mp h with ⟨e, he, hk⟩
      exact List.any_eq_true.mpr ⟨e, he, by simpa using hk⟩
    rw [if_pos hany, if_pos h, List.map_map]
    apply List.map_congr_left
    intro e _
    by_cases hek : e.1 = k
    · simp [hek]
    · simp [hek]
  · have hany : ¬ (m.any fun e => decide (e.1 = k)) = true := by
      simp only [List.any_eq_true, not_exists, not_and]
      intro e he
      simp only [decide_eq_true_eq]
      intro hek
      exact h (List.mem_map.mpr ⟨e, he, hek⟩)
    rw [if_neg hany, if_neg h, List.map_append]
    rfl

theorem keysOf_jsMapSet_nodup (m : List (κ × β)) (k : κ) (v : β)
    (h : (keysOf m).Nodup) : (keysOf (jsMapSet m k v)).Nodup := by
  rw [keysOf_jsMapSet]
  by_cases hk : k ∈ keysOf m
  · simpa [hk] using h
  · simp only [hk, if_false]
    exact h.append (List.nodup_singleton k) (by simpa using hk)

theorem mem_jsMapSet {m : List (κ × β)} {k : κ} {v : β} {p : κ × β}
    (h : p ∈ jsMapSet m k v) : p ∈ m ∨ p = (k, v) := by
  unfold jsMapSet at h
  by_cases hany : (m.any fun e => decide (e.1 = k)) = true
  · rw [if_pos hany] at h
    rcases List.mem_map.mp h with ⟨e, he, hp⟩
    by_cases hek : e.1 = k
    · right; simp only [hek, if_true, if_pos] at hp; exact hp.symm
    · left; simp only [hek, if_false, if_neg, not_false_iff] at hp; exact hp ▸ he
  · rw [if_neg hany] at h
    rcases List.mem_append.mp h with h1 | h2
    · exact Or.inl h1
    · exact Or.inr (List.mem_singleton.mp h2)

theorem jsGet_jsMapSet_self (m : List (κ × β)) (k : κ) (v : β) :
    jsGet (jsMapSet m k v) k = some v := by
  unfold jsGet jsMapSet
  by_cases hany : (m.any fun e => decide (e.1 = k)) = true
  · rw [if_pos hany, List.find?_map]
    have hfind : m.find? ((fun e => decide (e.1 = k)) ∘
        fun e => if e.1 = k then (k, v) else e) = m.find? (fun e => decide (e.1 = k)) := by
      apply find?_congr_pred
      intro e _
      by_cases hek : e.1 = k <;> simp [hek]
    rw [hfind]
    rcases List.any_eq_true.mp hany with ⟨e0, he0, hk0⟩
    have hsome : (m.find? fun e => decide (e.1 = k)).isSome := by
      exact List.find?_isSome.mpr ⟨e0, he0, hk0⟩
    rcases Option.isSome_iff_exists.mp hsome with ⟨x, hx⟩
    have hxk : x.1 = k := by simpa using List.find?_some hx
    rw [hx]
    simp [hxk]
  · rw [if_neg hany]
    have hnone : m.find? (fun e => decide (e.1 = k)) = none := by
      rw [List.find?_eq_none]
      intro e he
      simp only [decide_eq_true_eq]
      intro hek
      exact hany (List.any_eq_true.mpr ⟨e, he, by simpa using hek⟩)
    rw [find?_append_of_none hnone]
    simp

theorem jsGet_jsMapSet_ne (m : List (κ × β)) (k k' : κ) (v : β) (h : k' ≠ k) :
    jsGet (jsMapSet m k v) k' = jsGet m k' := by
  unfold jsGet jsMapSet
  by_cases hany : (m.any fun e => decide (e.1 = k)) = true
  · rw [if_pos hany, List.find?_map]
    have hfind : m.find? ((fun e => decide (e.1 = k')) ∘
        fun e => if e.1 = k then (k, v) else e) = m.find? (fun e => decide (e.1 = k')) := by
      apply find?_congr_pred
      intro e _
      by_cases hek : e.1 = k
      · have : ¬ (k = k') := fun hc => h hc.symm
        simp [hek, this]
      · simp [hek]
    rw [hfind]
    rcases hm : m.find? (fun e => decide (e.1 = k')) with _ | x
    · rw [hm]; rfl
    · have hxk : x.1 = k' := by simpa using List.find?_some hm
      have hxne : ¬ (x.1 = k) := fun hc => h (hxk ▸ hc ▸ rfl)
      rw [hm]
      simp [hxne]
  · rw [if_neg hany]
    rcases hm : m.find? (fun e => decide (e.1 = k')) with _ | x
    · rw [find?_append_of_none hm, hm]
      have hkk : ¬ (k = k') := fun hc => h hc.symm
      simp [hkk]
    · rw [find?_append_of_some hm, hm]

/-- Left-biased choice on options (`Option.orElse` with a strict second
argument), used to state the "last write wins" lookup law. -/
def optOr {γ : Type} (a b : Option γ) : Option γ :=
  match a with
  | some v => some v
  | none => b

theorem optOr_assoc {γ : Type} (a b c : Option γ) :
    optOr (optOr a b) c = optOr a (optOr b c) := by
  cases a <;> rfl

theorem lastAssoc_cons (e : κ × β) (es : List (κ × β)) (k : κ) :
    lastAssoc (e :: es) k =
      optOr (lastAssoc es k) (if e.1 = k then some e.2 else none) := by
  unfold lastAssoc optOr
  rw [List.reverse_cons]
  rcases hm : es.reverse.find? (fun x => decide (x.1 = k)) with _ | x
  · rw [find?_append_of_none hm, hm]
    by_cases hek : e.1 = k
    · rw [List.find?_cons_of_pos _ (by simpa using hek)]
      simp [hek]
    · rw [List.find?_cons_of_neg _ (by simpa using hek)]
      simp [hek]
  · rw [find?_append_of_some hm, hm]
    rfl

theorem keysOf_foldl_nodup (es : List (κ × β)) :
    ∀ m : List (κ × β), (keysOf m).Nodup →
      (keysOf (es.foldl (fun m e => jsMapSet m e.1 e.2) m)).Nodup := by
  induction es with
  | nil => intro m h; simpa using h
  | cons e es ih =>
    intro m h
    rw [List.foldl_cons]
    exact ih _ (keysOf_jsMapSet_nodup m e.1 e.2 h)

theorem mem_foldl_jsMapSet {p : κ × β} (es : List (κ × β)) :
    ∀ m : List (κ × β), p ∈ es.foldl (fun m e => jsMapSet m e.1 e.2) m →
      p ∈ m ∨ p ∈ es := by
  induction es with
  | nil => intro m h; simpa using h
  | cons e es ih =>
    intro m h
    rw [List.foldl_cons] at h
    rcases ih _ h with h1 | h2
    · rcases mem_jsMapSet h1 with hm | hev
      · exact Or.inl hm
      · exact Or.inr (by simp [hev])
    · exact Or.inr (List.mem_cons_of_mem e h2)

theorem jsGet_foldl_jsMapSet (es : List (κ × β)) (k : κ) :
    ∀ m : List (κ × β),
      jsGet (es.foldl (fun m e => jsMapSet m e.1 e.2) m) k =
        optOr (lastAssoc es k) (jsGet m k) := by
  induction es with
  | nil =>
    intro m
    simp [lastAssoc, optOr]
  | cons e es ih =>
    intro m
    rw [List.foldl_cons, ih, lastAssoc_cons, optOr_assoc]
    congr 1
    by_cases hek : e.1 = k
    · subst hek
      rw [jsGet_jsMapSet_self]
      simp [optOr]
    · rw [jsGet_jsMapSet_ne _ _ _ _ (fun hc => hek hc.symm)]
      simp [hek, optOr]

theorem mem_keysOf_foldl (es : List (κ × β)) (k : κ) :
    ∀ m : List (κ × β),
      (k ∈ keysOf (es.foldl (fun m e => jsMapSet m e.1 e.2) m) ↔
        k ∈ keysOf m ∨ k ∈ keysOf es) := by
  induction es with
  | nil => intro m; simp [keysOf]
  | cons e es ih =>
    intro m
    rw [List.foldl_cons, ih]
    have hstep : k ∈ keysOf (jsMapSet m e.1 e.2) ↔ k ∈ keysOf m ∨ k = e.1 := by
      rw [keysOf_jsMapSet]
      by_cases hm : e.1 ∈ keysOf m
      · rw [if_pos hm]
        constructor
        · exact fun h => Or.inl h
        · rintro (h | rfl)
          · exact h
          · exact hm
      · rw [if_neg hm]
        simp [List.mem_append]
    rw [hstep]
    simp only [keysOf, List.map_cons, List.mem_cons]
    tauto

theorem jsGet_of_mem_nodup {m : List (κ × β)} {k : κ} {v : β}
    (hnd : (keysOf m).Nodup) (hmem : (k, v) ∈ m) : jsGet m k = some v := by
  induction m with
  | nil => simp at hmem
  | cons e es ih =>
    rcases List.mem_cons.mp hmem with rfl | htail
    · unfold jsGet
      rw [List.find?_cons_of_pos _ (by simp)]
      rfl
    · have hnd' : (keysOf es).Nodup := (List.nodup_cons.mp hnd).2
      have hk : k ∈ keysOf es := List.mem_map.mpr ⟨(k, v), htail, rfl⟩
      have hek : ¬ (e.1 = k) := by
        intro hc
        exact (List.nodup_cons.mp hnd).1 (hc ▸ hk)
      unfold jsGet
      rw [List.find?_cons_of_neg _ (by simpa using hek)]
      exact ih hnd' htail

theorem jsMapOfEntries_keys_nodup (es : List (κ × β)) :
    (keysOf (jsMapOfEntries es)).Nodup :=
  keysOf_foldl_nodup es [] (by simp [keysOf])

theorem mem_of_mem_jsMapOfEntries {es : List (κ × β)} {p : κ × β}
    (h : p ∈ jsMapOfEntries es) : p ∈ es := by
  rcases mem_foldl_jsMapSet es [] h with h0 | h1
  · simp at h0
  · exact h1

theorem jsGet_jsMapOfEntries (es : List (κ × β)) (k : κ) :
    jsGet (jsMapOfEntries es) k = lastAssoc es k := by
  unfold jsMapOfEntries
  rw [jsGet_foldl_jsMapSet]
  have : jsGet ([] : List (κ × β)) k = none := by simp [jsGet]
  rw [this]
  cases lastAssoc es k <;> rfl

theorem mem_keysOf_jsMapOfEntries (es : List (κ × β)) (k : κ) :
    k ∈ keysOf (jsMapOfEntries es) ↔ k ∈ keysOf es := by
  unfold jsMapOfEntries
  rw [mem_keysOf_foldl]
  simp [keysOf]

theorem jsMapValues_mem {es : List (κ × β)} {v : β}
    (h : v ∈ jsMapValues es) : ∃ k, (k, v) ∈ es ∧ lastAssoc es k = some v := by
  rcases List.mem_map.mp h with ⟨p, hp, hsnd⟩
  refine ⟨p.1, ?_, ?_⟩
  · have := mem_of_mem_jsMapOfEntries hp
    rwa [show (p.1, v) = p by rw [← hsnd]]
  · rw [← jsGet_jsMapOfEntries]
    have := jsGet_of_mem_nodup (jsMapOfEntries_keys_nodup es)
      (show (p.1, v) ∈ jsMapOfEntries es by rwa [show (p.1, v) = p by rw [← hsnd]])
    exact this

theorem jsMapValues_complete {es : List (κ × β)} {k : κ} (h : k ∈ keysOf es) :
    ∃ v, (k, v) ∈ jsMapOfEntries es ∧ v ∈ jsMapValues es ∧
      lastAssoc es k = some v := by
  have hk : k ∈ keysOf (jsMapOfEntries es) := (mem_keysOf_jsMapOfEntries es k).mpr h
  rcases List.mem_map.mp hk with ⟨p, hp, hfst⟩
  refine ⟨p.2, ?_, ?_, ?_⟩
  · rwa [show (k, p.2) = p by rw [← hfst]]
  · exact List.mem_map.mpr ⟨p, hp, rfl⟩
  · rw [← jsGet_jsMapOfEntries]
    exact jsGet_of_mem_nodup (jsMapOfEntries_keys_nodup es)
      (by rwa [show (k, p.2) = p by rw [← hfst]])

end JsMap

/-! ## Website presence resolver (`src/lib/websiteChecker.js`) -/

/-- The character class matched by the JavaScript regex token `\s`
(ECMAScript WhiteSpace and LineTerminator code points). -/
def jsWhitespace (c : Char) : Bool :=
  c.val = 0x20 || c.val = 0x09 || c.val = 0x0a || c.val = 0x0b ||
  c.val = 0x0c || c.val = 0x0d || c.val = 0xa0 || c.val = 0x1680 ||
  (0x2000 ≤ c.val && c.val ≤ 0x200a) || c.val = 0x2028 || c.val = 0x2029 ||
  c.val = 0x202f || c.val = 0x205f || c.val = 0x3000 || c.val = 0xfeff

/-- The character class `[a-z0-9]`. -/
def isAsciiLowerOrDigit (c : Char) : Bool :=
  (0x61 ≤ c.val && c.val ≤ 0x7a) || (0x30 ≤ c.val && c.val ≤ 0x39)

/-- One alternative of the regex `/^(the|a|an)\s+/i`: if `art` is a
(case-insensitive) character prefix of `cs` followed by at least one
whitespace character, drop the article together with the whole greedy
whitespace run (`\s+`); otherwise the alternative does not match. -/
def tryStripArticle (art : List Char) (cs : List Char) : Option (List Char) :=
  match cs.drop art.length with
  | [] => none
  | c :: rest =>
    if (cs.take art.length).map Char.toLower = art ∧ jsWhitespace c = true then
      some (List.dropWhile jsWhitespace (c :: rest))
    else none

/-- `.replace(/^(the|a|an)\s+/i, '')`: the regex engine tries the
alternatives in written order at the start of the string. -/
def stripLeadingArticle (cs : List Char) : List Char :=
  match tryStripArticle "the".toList cs with
  | some r => r
  | none =>
    match tryStripArticle "a".toList cs with
    | some r => r
    | none =>
      match tryStripArticle "an".toList cs with
      | some r => r
      | none => cs

/-- The `cleanName` computation of `searchForWebsite`
(`src/lib/websiteChecker.js` lines 22–26), step for step:
`.toLowerCase()`, `.replace(/[^a-z0-9\s]/g, '')` (keep only lower-case
ASCII letters, digits and whitespace), `.replace(/\s+/g, '')` (remove all
whitespace), `.replace(/^(the|a|an)\s+/i, '')` (attempt to strip a leading
article — note this runs after whitespace removal). -/
def cleanName (businessName : String) : String :=
  String.mk (stripLeadingArticle
    (((businessName.toList.map Char.toLower).filter
        (fun c => isAsciiLowerOrDigit c || jsWhitespace c)).filter
      (fun c => !jsWhitespace c)))

/-- Outcome of one `fetch` HEAD probe: an HTTP response with a status
code, or a thrown error (timeout / abort / connection failure). -/
inductive ProbeOutcome where
  | ok (status : Nat)
  | failure
  deriving DecidableEq, Repr

/-- `Response.ok` of the Fetch API: status in the range 200–299. -/
def fetchOk (status : Nat) : Bool :=
  decide (200 ≤ status) && decide (status ≤ 299)

/-- Result record `\x7b hasWebsite, website \x7d` returned by the
resolver functions. -/
structure CheckResult where
  hasWebsite : Bool
  website : Option String
  deriving DecidableEq, Repr

/-- The `for (const domain of possibleDomains)` loop of
`searchForWebsite` (lines 41–69): probe each domain in order; a 2xx
response (`response.ok`) or a 3xx response is a hit and returns
`https://<domain>` immediately; a thrown error (timeout, abort,
connection refused) or any other status falls through to the next
candidate.  The second component records the domains actually probed, in
call order. -/
def probeLoop (net : String → ProbeOutcome) : List String → Option String × List String
  | [] => (none, [])
  | domain :: rest =>
    match net domain with
    | ProbeOutcome.ok status =>
      if fetchOk status = true ∨ (300 ≤ status ∧ status < 400) then
        (some ("https://" ++ domain), [domain])
      else
        let r := probeLoop net rest
        (r.1, domain :: r.2)
    | ProbeOutcome.failure =>
      let r := probeLoop net rest
      (r.1, domain :: r.2)

/-- `searchForWebsite(businessName, location)` (lines 19–76).  The probe
oracle `net` stands for the network; the returned list is the sequence of
domains fetched. -/
def searchForWebsite (net : String → ProbeOutcome)
    (businessName location : String) : CheckResult × List String :=
  let cleanName := cleanName businessName
  if cleanName.length < 3 then
    ({ hasWebsite := false, website := none }, [])
  else
    let possibleDomains := [cleanName ++ ".com", "www." ++ cleanName ++ ".com"]
    match probeLoop net possibleDomains with
    | (some url, tr) => ({ hasWebsite := true, website := some url }, tr)
    | (none, tr) => ({ hasWebsite := false, website := none }, tr)

/-- `checkBusinessWebsite(businessName, location, existingWebsite)`
(lines 78–97): a truthy `existingWebsite` is trusted unconditionally and
nothing is probed; otherwise fall back to `searchForWebsite`. -/
def checkBusinessWebsite (net : String → ProbeOutcome)
    (businessName location : String) (existingWebsite : Option String) :
    CheckResult × List String :=
  if optTruthy existingWebsite then
    ({ hasWebsite := true, website := existingWebsite }, [])
  else
    searchForWebsite net businessName location

/-! ## Place source adapter (`src/lib/websiteChecker.js`, pagination) -/

/-- A raw place record of the upstream text-search page (the fields the
code reads from `data.results[i]`). -/
structure Place where
  place_id : String
  name : String
  formatted_address : String
  rating : Option ℚ
  user_ratings_total : Option ℕ
  types : List String
  deriving DecidableEq, Repr

/-- One upstream page response: HTTP-level `ok`, the payload `status`,
`results` and `next_page_token`. -/
structure PageResponse where
  ok : Bool
  status : String
  results : List Place
  next_page_token : Option String
  deriving DecidableEq, Repr

/-- The detailed error text built for a non-OK first page
(lines 135–150); the hint branches matter only as opaque text. -/
def googlePlacesErrorMessage (status : String) : String :=
  let errorMessage := "Google Places API error: " ++ status
  if status = "REQUEST_DENIED" then
    errorMessage ++ ". This usually means:\n" ++
      "1. Places API is not enabled in Google Cloud Console\n" ++
      "2. Billing is not enabled for your Google Cloud project\n" ++
      "3. API key restrictions are blocking the request\n" ++
      "4. The API key is invalid\n\n" ++
      "Please check: https://console.cloud.google.com/apis/library/places-backend.googleapis.com"
  else if status = "INVALID_REQUEST" then
    errorMessage ++ ". The request was invalid. Check your query parameters."
  else if status = "OVER_QUERY_LIMIT" then
    errorMessage ++ ". You have exceeded your API quota. Check your billing."
  else if status = "UNKNOWN_ERROR" then
    errorMessage ++ ". An unknown error occurred. Please try again."
  else errorMessage

/-- The `do … while (nextPageToken && pageCount < maxPages)` loop of
`fetchAllPlaces` (lines 110–167), one recursive step per upstream fetch.
The successive upstream responses are supplied as the list `pages`; the
result carries the accumulated `allResults` together with the final
`pageCount` (the number of pages whose results were consumed).  A
non-2xx HTTP response throws; a non-OK payload status throws on the
first page and silently stops pagination on a later page. -/
def fetchAllPlacesGo (maxPages : Nat) :
    List PageResponse → Nat → List Place → Except String (List Place × Nat)
  | [], pageCount, allResults => Except.ok (allResults, pageCount)
  | response :: rest, pageCount, allResults =>
    if response.ok = false then
      Except.error "Google Places API request failed"
    else if response.status ≠ "OK" ∧ response.status ≠ "ZERO_RESULTS" then
      if pageCount = 0 then Except.error (googlePlacesErrorMessage response.status)
      else Except.ok (allResults, pageCount)
    else
      let allResults := allResults ++ response.results
      let pageCount := pageCount + 1
      match response.next_page_token with
      | none => Except.ok (allResults, pageCount)
      | some _ =>
        if pageCount < maxPages then fetchAllPlacesGo maxPages rest pageCount allResults
        else Except.ok (allResults, pageCount)

/-- `fetchAllPlaces(searchQuery, apiKey, maxPages)` with the network
abstracted to the list of upstream page responses. -/
def fetchAllPlaces (pages : List PageResponse) (maxPages : Nat) :
    Except String (List Place × Nat) :=
  fetchAllPlacesGo maxPages pages 0 []

/-- The deduplication step of `searchBusinesses`
(lines 191–196): `Array.from(new Map(allPlaces.map(place =>
[place.place_id, place])).values())`. -/
def uniquePlaces (allPlaces : List Place) : List Place :=
  jsMapValues (allPlaces.map (fun place => (place.place_id, place)))

/-! ## Search entry point (`src/app/api/search/route.js`) -/

/-- What the entry point decides to do with a request, before any
network traffic: reject it as invalid input (HTTP 400), or run a
particular upstream search term with a page cap. -/
inductive SearchPlan where
  | badRequest
  | search (term : String) (maxPages : Nat)
  deriving DecidableEq, Repr

/-- JavaScript `String.prototype.trim()`: strip leading and trailing
`\s` characters. -/
def jsTrim (s : String) : String :=
  String.mk (List.reverse (List.dropWhile jsWhitespace
    (List.reverse (List.dropWhile jsWhitespace s.toList))))

/-- The input-validation and search-dispatch logic of the `POST` handler
(`route.js` lines 6–16) combined with the query branch of
`searchBusinesses` (`websiteChecker.js` lines 175–185, the configured
Google Places path): `!query || !location` is rejected with status 400;
a query with non-blank trim searches one page of
`"<query.trim()> in <location>"`; otherwise (a whitespace-only query)
up to two pages of `"businesses in <location>"`. -/
def postSearchPlan (query location : String) : SearchPlan :=
  if query = "" ∨ location = "" then SearchPlan.badRequest
  else if jsTrim query ≠ "" then
    SearchPlan.search (jsTrim query ++ " in " ++ location) 1
  else
    SearchPlan.search ("businesses in " ++ location) 2

/-- A business record as assembled by `searchBusinesses` and consumed by
the rest of the pipeline.  Optional string fields hold `none` for
JavaScript `null`/`undefined`; `hasWebsite` is `false` until the route
sets it. -/
structure Business where
  name : String
  address : String
  phone : Option String := none
  website : Option String := none
  rating : Option ℚ := none
  userRatingsTotal : Option ℕ := none
  businessStatus : Option String := none
  types : List String := []
  openingHoursStatus : Option String := none
  priceLevel : Option ℕ := none
  googleMapsUrl : Option String := none
  placeId : Option String := none
  hasWebsite : Bool := false
  deriving DecidableEq, Repr

/-- The per-business body of the `businesses.map` in the `POST` handler
(`route.js` lines 22–52): a truthy source-supplied `website` is trusted
(`hasWebsite: true`, no fallback call); otherwise
`checkBusinessWebsite(name, location, null)` runs and its result is
spread into the record (`website: websiteCheck.website || null`). -/
def routeWebsiteStep (net : String → ProbeOutcome) (location : String)
    (business : Business) : Business × List String :=
  if optTruthy business.website then
    ({ business with hasWebsite := true }, [])
  else
    let websiteCheck := checkBusinessWebsite net business.name location none
    ({ business with
        hasWebsite := websiteCheck.1.hasWebsite,
        website := jsOrNull websiteCheck.1.website }, websiteCheck.2)

/-- The final response mapping (`route.js` lines 57–61):
`(\x7b hasWebsite, website, ...rest \x7d) => (\x7b ...rest, hasWebsite,
website: website || null \x7d)`. -/
def routeFinalize (business : Business) : Business :=
  { business with website := jsOrNull business.website }

/-- One business through the whole `POST` resolution pipeline: the
website step followed by the response mapping, with the probe trace. -/
def routeBusinessPipeline (net : String → ProbeOutcome) (location : String)
    (business : Business) : Business × List String :=
  let r := routeWebsiteStep net location business
  (routeFinalize r.1, r.2)

/-! ## Lead store and scoring (`src/lib/storage.js`, `src/app/page.js`) -/

/-- `Math.round` on an exact rational: round half toward positive
infinity. -/
def jsRound (q : ℚ) : ℤ := Int.floor (q + 1 / 2)

/-- `calculateLeadScore(lead)` (`storage.js` lines 103–132).  Each
summand is one `if (lead.X) score += …` step, with JavaScript number and
string truthiness made explicit (`0`, `null` and `""` are falsy). -/
def calculateLeadScore (lead : Business) : ℤ :=
  jsRound (
    (match lead.rating with
      | some r => if r = 0 then 0 else r * 10
      | none => 0)
    + (match lead.userRatingsTotal with
      | some n => if n = 0 then 0 else min ((n : ℚ) / 10) 20
      | none => 0)
    + (if lead.hasWebsite then 0 else 30)
    + (if optTruthy lead.phone then 10 else 0)
    + (if lead.address = "" then 0 else 5))

/-- A persisted lead: a business record spread together with workflow
metadata (`page.js` lines 597–605).  Timestamps are abstract clock
values. -/
structure Lead where
  business : Business
  id : String
  status : String
  score : ℤ
  addedDate : ℕ
  lastUpdated : ℕ
  lastContactDate : Option ℕ := none
  projectId : Option String := none
  deriving DecidableEq, Repr

/-- In-place update of the element at an index (the
`leads[leadIndex] = …` mutation); out-of-range indices leave the list
unchanged. -/
def listModify {γ : Type} : List γ → ℕ → (γ → γ) → List γ
  | [], _, _ => []
  | x :: xs, 0, f => f x :: xs
  | x :: xs, Nat.succ n, f => x :: listModify xs n f

/-- `updateLeadStatus(leadId, status)` (`storage.js` lines 90–101) over
an explicit lead collection.  `some leads` models "the mutated
collection was written back with `saveLeads`"; `none` models "the guard
`leadIndex !== -1` failed, so nothing was written". -/
def updateLeadStatus (leads : List Lead) (leadId status : String) (now : ℕ) :
    Option (List Lead) :=
  match leads.findIdx? (fun l => l.id = leadId) with
  | none => none
  | some i =>
    some (listModify leads i (fun lead =>
      let lead := { lead with status := status, lastUpdated := now }
      if status = "contacted" ∨ status = "replied" then
        { lead with lastContactDate := some now }
      else lead))

/-- The composite dedup key of the saved-lead merge (`page.js`
line 613): `item.placeId || item.name + "_" + item.address`. -/
def leadKey (item : Lead) : String :=
  jsOrStr item.business.placeId (item.business.name ++ "_" ++ item.business.address)

/-- The lead record built for one selected business (`page.js` lines
597–605). -/
def mkNewLead (business : Business) (now : ℕ)
    (selectedProjectId : Option String) : Lead :=
  { business := business
    id := jsOrStr business.placeId
      (business.name ++ "_" ++ business.address ++ "_" ++ toString now)
    status := "new"
    score := calculateLeadScore business
    addedDate := now
    lastUpdated := now
    lastContactDate := none
    projectId := jsOrNull selectedProjectId }

/-- The `businessesToAdd` computation of `addSelectedToSaved`
(`page.js` lines 591–607): map each selected index to a lead record,
dropping missing entries and entries with `hasWebsite` set, then filter
out the `null`s. -/
def businessesToAdd (results : List Business) (selected : List ℕ) (now : ℕ)
    (selectedProjectId : Option String) : List Lead :=
  (selected.map (fun idx =>
    match results.get? idx with
    | none => none
    | some business =>
      if business.hasWebsite then none
      else some (mkNewLead business now selectedProjectId))).reduceOption

/-- `addSelectedToSaved` (`page.js` lines 590–620): append the new lead
records to the saved collection, then deduplicate through a JavaScript
`Map` keyed by `placeId || name_address`. -/
def addSelectedToSaved (results : List Business) (selected : List ℕ)
    (savedBusinesses : List Lead) (now : ℕ)
    (selectedProjectId : Option String) : List Lead :=
  let newSaved := savedBusinesses ++ businessesToAdd results selected now selectedProjectId
  jsMapValues (newSaved.map (fun item => (leadKey item, item)))

/-- A project record (`page.js` lines 649–656). -/
structure Project where
  id : String
  name : String
  query : String
  location : String
  createdAt : ℕ
  leadIds : List String
  deriving DecidableEq, Repr

/-- `handleDeleteProject(projectId)` (`page.js` lines 738–759) acting on
the two persisted collections: a no-op when the id is unknown, otherwise
remove the project from the project list and null out `projectId` on the
leads that carried it. -/
def handleDeleteProject (projects : List Project) (savedBusinesses : List Lead)
    (projectId : String) : List Project × List Lead :=
  match projects.find? (fun p => p.id = projectId) with
  | none => (projects, savedBusinesses)
  | some _ =>
    (projects.filter (fun p => p.id ≠ projectId),
     savedBusinesses.map (fun lead =>
       if lead.projectId = some projectId then { lead with projectId := none }
       else lead))

/-! ## Spec-side definitions for refinement comparison -/

/-- Helper for `collapseWhitespace`: `prevWs` records whether the
previous character belonged to a whitespace run that has already emitted
its single space. -/
def collapseWhitespaceGo (prevWs : Bool) : List Char → List Char
  | [] => []
  | c :: rest =>
    if jsWhitespace c then
      if prevWs then collapseWhitespaceGo true rest
      else ' ' :: collapseWhitespaceGo true rest
    else
      c :: collapseWhitespaceGo false rest

/-- Replace every maximal whitespace run by a single space — the
"collapsing whitespace" step as worded in spec §4.2. -/
def collapseWhitespace (cs : List Char) : List Char :=
  collapseWhitespaceGo false cs

/-- Follows the wording of spec §4.2 and claim C4: "lowercasing the
name, stripping characters outside [a-z0-9 and whitespace], collapsing
whitespace, stripping a leading article ('the'/'a'/'an')".  Defined for
comparison with the source-derived `cleanName`. -/
def specCleanName (businessName : String) : String :=
  String.mk (stripLeadingArticle (collapseWhitespace
    ((businessName.toList.map Char.toLower).filter
      (fun c => isAsciiLowerOrDigit c || jsWhitespace c))))

/-- The spec-worded primary candidate domain: `specCleanName` with
".com" appended. -/
def specPrimaryDomain (businessName : String) : String :=
  specCleanName businessName ++ ".com"

/-- The source-derived primary candidate domain: the first entry of
`possibleDomains` in `searchForWebsite`. -/
def primaryDomain (businessName : String) : String :=
  cleanName businessName ++ ".com"

/-- The amended description of the code's name cleaning: all whitespace
removed (not collapsed), and no article stripping at all. -/
def cleanNameNoArticle (businessName : String) : String :=
  String.mk (((businessName.toList.map Char.toLower).filter
      (fun c => isAsciiLowerOrDigit c || jsWhitespace c)).filter
    (fun c => !jsWhitespace c))

/-! ## Claim C4: the candidate-domain derivation -/

theorem tryStripArticle_eq_none (art : List Char) (cs : List Char)
    (h : ∀ c ∈ cs, jsWhitespace c = false) : tryStripArticle art cs = none := by
  unfold tryStripArticle
  split
  next => rfl
  next c rest hd =>
    rw [if_neg]
    rintro ⟨-, hw⟩
    have hc0 : c ∈ cs.drop art.length := by
      rw [hd]; exact List.mem_cons_self c rest
    have hc : c ∈ cs := List.mem_of_mem_drop hc0
    rw [h c hc] at hw
    exact Bool.false_ne_true hw

theorem stripLeadingArticle_of_no_ws (cs : List Char)
    (h : ∀ c ∈ cs, jsWhitespace c = false) : stripLeadingArticle cs = cs := by
  unfold stripLeadingArticle
  rw [tryStripArticle_eq_none "the".toList cs h, tryStripArticle_eq_none "a".toList cs h,
    tryStripArticle_eq_none "an".toList cs h]

/-- Because the whitespace-removal step runs before the article-strip
step, the article regex (which must match whitespace after the article)
never fires: `cleanName` equals the pipeline with no article stripping
at all. -/
theorem cleanName_eq_noArticle (businessName : String) :
    cleanName businessName = cleanNameNoArticle businessName := by
  unfold cleanName cleanNameNoArticle
  congr 1
  apply stripLeadingArticle_of_no_ws
  intro c hc
  have h2 := (List.mem_filter.mp hc).2
  simpa using h2

/-- C4, counterexample: the claim says the resolver lowercases, strips
the character class, collapses whitespace, strips a leading article and
appends ".com".  On "The Waffle House" that recipe yields
"waffle house.com", but the code produces "thewafflehouse.com": the code
removes (not collapses) whitespace before the article-strip regex runs,
so the leading "the" survives. -/
theorem C4_counterexample :
    primaryDomain "The Waffle House" = "thewafflehouse.com" ∧
    specPrimaryDomain "The Waffle House" = "waffle house.com" ∧
    primaryDomain "The Waffle House" ≠ specPrimaryDomain "The Waffle House" := by
  refine ⟨by decide, by decide, by decide⟩

/-- C4 (amended): for every business name with no source-supplied
website, the candidate name is derived by lowercasing, stripping
characters outside [a-z0-9 and whitespace] and removing all whitespace —
the leading-article strip in the code never applies, because the
whitespace it must match has already been removed — and ".com" is
appended to form the probe domain; if the cleaned name is under 3
characters the resolver returns hasWebsite=false without probing any
domain. -/
theorem searchForWebsite_cleanName_spec (net : String → ProbeOutcome)
    (businessName location : String) :
    cleanName businessName = cleanNameNoArticle businessName ∧
    primaryDomain businessName = cleanNameNoArticle businessName ++ ".com" ∧
    ((cleanName businessName).length < 3 →
      searchForWebsite net businessName location =
        ({ hasWebsite := false, website := none }, [])) := by
  refine ⟨cleanName_eq_noArticle businessName, ?_, ?_⟩
  · unfold primaryDomain
    rw [cleanName_eq_noArticle]
  · intro h
    unfold searchForWebsite
    rw [if_pos h]

/-- C4 witness: evaluating the amended claim at the short name "A1"
(cleaned name "a1", length 2) with a never-answering network. -/
theorem C4_witness :
    cleanName "A1" = cleanNameNoArticle "A1" ∧
    searchForWebsite (fun _ => ProbeOutcome.failure) "A1" "Springfield" =
      ({ hasWebsite := false, website := none }, []) :=
  ⟨(searchForWebsite_cleanName_spec (fun _ => ProbeOutcome.failure) "A1" "Springfield").1,
   (searchForWebsite_cleanName_spec (fun _ => ProbeOutcome.failure) "A1" "Springfield").2.2
     (by decide)⟩

/-! ## Claim C5: probe order and outcome handling -/

/-- Whether one probe outcome counts as "site exists" in the loop: a 2xx
(`response.ok`) or 3xx response; thrown errors and every other status do
not. -/
def probeHit : ProbeOutcome → Prop
  | ProbeOutcome.ok status => fetchOk status = true ∨ (300 ≤ status ∧ status < 400)
  | ProbeOutcome.failure => False

instance decidableProbeHit (o : ProbeOutcome) : Decidable (probeHit o) :=
  match o with
  | ProbeOutcome.ok status =>
    inferInstanceAs (Decidable (fetchOk status = true ∨ (300 ≤ status ∧ status < 400)))
  | ProbeOutcome.failure => Decidable.isFalse id

theorem probeLoop_cons (net : String → ProbeOutcome) (domain : String)
    (rest : List String) :
    probeLoop net (domain :: rest) =
      if probeHit (net domain) then
        (some ("https://" ++ domain), [domain])
      else
        ((probeLoop net rest).1, domain :: (probeLoop net rest).2) := by
  conv_lhs => rw [probeLoop]
  split
  next status heq =>
    rw [heq]
    by_cases h : fetchOk status = true ∨ (300 ≤ status ∧ status < 400)
    · rw [if_pos h, if_pos (show probeHit (ProbeOutcome.ok status) from h)]
    · rw [if_neg h, if_neg (show ¬ probeHit (ProbeOutcome.ok status) from h)]
  next heq =>
    rw [heq, if_neg (show ¬ probeHit ProbeOutcome.failure from id)]

/-- C5: for a record whose source-supplied website is empty/absent (and
whose cleaned name is long enough to be probed at all, the short-name
case being claim C4), the resolver probes `<cleanedname>.com` first and
`www.<cleanedname>.com` second; a 2xx/3xx response returns immediately
with hasWebsite=true and that URL, a timeout/connection failure/other
status moves on to the next candidate, and if no candidate succeeds the
result is hasWebsite=false with no website. -/
theorem checkBusinessWebsite_probe_order (net : String → ProbeOutcome)
    (businessName location : String) (existingWebsite : Option String)
    (hexist : optTruthy existingWebsite = false)
    (hlen : 3 ≤ (cleanName businessName).length) :
    (probeHit (net (cleanName businessName ++ ".com")) →
      checkBusinessWebsite net businessName location existingWebsite =
        ({ hasWebsite := true,
           website := some ("https://" ++ (cleanName businessName ++ ".com")) },
         [cleanName businessName ++ ".com"])) ∧
    (¬ probeHit (net (cleanName businessName ++ ".com")) →
      probeHit (net ("www." ++ cleanName businessName ++ ".com")) →
      checkBusinessWebsite net businessName location existingWebsite =
        ({ hasWebsite := true,
           website := some ("https://" ++ ("www." ++ cleanName businessName ++ ".com")) },
         [cleanName businessName ++ ".com", "www." ++ cleanName businessName ++ ".com"])) ∧
    (¬ probeHit (net (cleanName businessName ++ ".com")) →
      ¬ probeHit (net ("www." ++ cleanName businessName ++ ".com")) →
      checkBusinessWebsite net businessName location existingWebsite =
        ({ hasWebsite := false, website := none },
         [cleanName businessName ++ ".com", "www." ++ cleanName businessName ++ ".com"])) := by
  have hnotlt : ¬ (cleanName businessName).length < 3 := Nat.not_lt.mpr hlen
  unfold checkBusinessWebsite searchForWebsite
  rw [hexist]
  simp only [Bool.false_eq_true, if_false, hnotlt]
  refine ⟨?_, ?_, ?_⟩
  · intro h1
    rw [probeLoop_cons, if_pos h1]
  · intro h1 h2
    rw [probeLoop_cons, if_neg h1, probeLoop_cons, if_pos h2]
  · intro h1 h2
    rw [probeLoop_cons, if_neg h1, probeLoop_cons, if_neg h2]
    rfl

/-- C5 witness: a network on which both probes fail (thrown errors), at
the name "Joes Diner" (cleaned name "joesdiner") with no source
website. -/
theorem C5_witness :
    checkBusinessWebsite (fun _ => ProbeOutcome.failure) "Joes Diner" "Springfield" none =
      ({ hasWebsite := false, website := none },
       [cleanName "Joes Diner" ++ ".com", "www." ++ cleanName "Joes Diner" ++ ".com"]) :=
  (checkBusinessWebsite_probe_order (fun _ => ProbeOutcome.failure)
    "Joes Diner" "Springfield" none rfl (by decide)).2.2 id id

/-! ## Claim C6: source-supplied websites are trusted, never probed -/

/-- C6: a business whose source-supplied website field is truthy passes
through the resolution pipeline unchanged except for `hasWebsite := true`,
with an empty probe trace; and whenever the pipeline probed anything at
all, the record's source website was falsy. -/
theorem routeBusinessPipeline_trusts_source (net : String → ProbeOutcome)
    (location : String) (business : Business)
    (h : optTruthy business.website = true) :
    routeBusinessPipeline net location business =
      ({ business with hasWebsite := true }, []) ∧
    (∀ b : Business, (routeBusinessPipeline net location b).2 ≠ [] →
      optTruthy b.website = false) := by
  constructor
  · rcases hwebsite : business.website with _ | s
    · rw [hwebsite] at h
      simp [optTruthy] at h
    · have hs : ¬ (s = "") := by
        rw [hwebsite] at h
        simpa [optTruthy] using h
      unfold routeBusinessPipeline routeWebsiteStep routeFinalize
      rw [if_pos h]
      simp only [hwebsite, jsOrNull, if_neg hs]
  · intro b hb
    by_cases hw : optTruthy b.website = true
    · exfalso
      apply hb
      unfold routeBusinessPipeline routeWebsiteStep
      rw [if_pos hw]
    · simpa using hw

/-- A record that already carries a website, used to instantiate C6. -/
def businessWithSite : Business :=
  { name := "Acme Consulting", address := "9 Elm St",
    website := some "https://acme.example", hasWebsite := false }

/-- C6 witness: the concrete record keeps its website, gains
`hasWebsite := true`, and triggers no probe. -/
theorem C6_witness :
    routeBusinessPipeline (fun _ => ProbeOutcome.failure) "Springfield" businessWithSite =
      ({ businessWithSite with hasWebsite := true }, []) :=
  (routeBusinessPipeline_trusts_source (fun _ => ProbeOutcome.failure)
    "Springfield" businessWithSite rfl).1

/-! ## Claim C7: score monotonicity -/

theorem jsRound_mono {q1 q2 : ℚ} (h : q1 ≤ q2) : jsRound q1 ≤ jsRound q2 := by
  unfold jsRound
  exact Int.floor_le_floor (by linarith)

/-- C7: holding all other fields fixed, `calculateLeadScore` is
monotonically non-decreasing in the rating (over nonnegative ratings, in
particular over [0,5]), non-decreasing in the review count, and
non-decreasing when `hasWebsite` flips from true to false. -/
theorem calculateLeadScore_monotone (lead : Business) (r1 r2 : ℚ) (n1 n2 : ℕ)
    (hr0 : 0 ≤ r1) (hr : r1 ≤ r2) (hn : n1 ≤ n2) :
    calculateLeadScore { lead with rating := some r1 } ≤
      calculateLeadScore { lead with rating := some r2 } ∧
    calculateLeadScore { lead with userRatingsTotal := some n1 } ≤
      calculateLeadScore { lead with userRatingsTotal := some n2 } ∧
    calculateLeadScore { lead with hasWebsite := true } ≤
      calculateLeadScore { lead with hasWebsite := false } := by
  unfold calculateLeadScore
  dsimp only
  refine ⟨?_, ?_, ?_⟩
  · apply jsRound_mono
    apply add_le_add_right
    apply add_le_add_right
    apply add_le_add_right
    apply add_le_add_right
    by_cases h1 : r1 = 0
    · by_cases h2 : r2 = 0
      · simp [h1, h2]
      · rw [if_pos h1, if_neg h2]
        nlinarith
    · have h2 : ¬ (r2 = 0) := by
        intro hc
        apply h1
        have : r1 ≤ 0 := hc ▸ hr
        linarith
      rw [if_neg h1, if_neg h2]
      nlinarith
  · apply jsRound_mono
    apply add_le_add_right
    apply add_le_add_right
    apply add_le_add_right
    apply add_le_add_left
    by_cases h1 : n1 = 0
    · by_cases h2 : n2 = 0
      · simp [h1, h2]
      · rw [if_pos h1, if_neg h2]
        have hpos : (0 : ℚ) ≤ (n2 : ℚ) / 10 := by positivity
        exact le_min hpos (by norm_num)
    · have h2 : ¬ (n2 = 0) := by
        intro hc
        apply h1
        omega
      rw [if_neg h1, if_neg h2]
      apply min_le_min _ le_rfl
      have hc : (n1 : ℚ) ≤ (n2 : ℚ) := by exact_mod_cast hn
      linarith
  · apply jsRound_mono
    apply add_le_add_right
    apply add_le_add_right
    apply add_le_add_left
    norm_num

/-- A record used to instantiate the monotonicity claim. -/
def sampleBusiness : Business :=
  { name := "Corner Bakery", address := "12 High St",
    phone := some "(555) 0100", rating := some 4,
    userRatingsTotal := some 25, hasWebsite := false }

/-- C7 witness: the three monotonicity statements at rating 1 ≤ 2 and
review counts 5 ≤ 10 on a concrete record. -/
theorem C7_witness :
    calculateLeadScore { sampleBusiness with rating := some 1 } ≤
      calculateLeadScore { sampleBusiness with rating := some 2 } ∧
    calculateLeadScore { sampleBusiness with userRatingsTotal := some 5 } ≤
      calculateLeadScore { sampleBusiness with userRatingsTotal := some 10 } ∧
    calculateLeadScore { sampleBusiness with hasWebsite := true } ≤
      calculateLeadScore { sampleBusiness with hasWebsite := false } :=
  calculateLeadScore_monotone sampleBusiness 1 2 5 10 (by norm_num) (by norm_num)
    (by norm_num)

/-- The worked example of spec §8: rating 4.5, 120 reviews, no website,
phone and address present scores 45 + 12 + 30 + 10 + 5 = 102. -/
theorem calculateLeadScore_example :
    calculateLeadScore
      { name := "B", address := "addr", phone := some "555",
        rating := some (9 / 2), userRatingsTotal := some 120,
        hasWebsite := false } = 102 := by
  simp only [calculateLeadScore, jsRound, optTruthy]
  norm_num [min_def]
  rw [Int.floor_eq_iff] <;>
    norm_num [show ¬ (("555" : String) = "") by decide,
      show ¬ (("addr" : String) = "") by decide]

/-! ## Claim C3: input validation and page caps -/

/-- C3, counterexample: the claim says the entry point fails with 400 if
and only if the location is empty/blank, and that a blank query does not
cause failure.  But the handler rejects `!query || !location`: an empty
query with a perfectly good location is rejected with 400, while a
whitespace-only (blank but truthy) location is not rejected at all. -/
theorem C3_counterexample :
    postSearchPlan "" "Springfield" = SearchPlan.badRequest ∧
    "Springfield" ≠ "" ∧
    postSearchPlan "plumbers" " " ≠ SearchPlan.badRequest ∧
    jsTrim " " = "" := by
  refine ⟨by decide, by decide, by decide, by decide⟩

theorem fetchAllPlacesGo_count_le (maxPages : Nat) (pages : List PageResponse) :
    ∀ (cnt : Nat) (acc res : List Place) (n : Nat),
      fetchAllPlacesGo maxPages pages cnt acc = Except.ok (res, n) →
      n ≤ max maxPages (cnt + 1) := by
  induction pages with
  | nil =>
    intro cnt acc res n h
    simp only [fetchAllPlacesGo, Except.ok.injEq, Prod.mk.injEq] at h
    omega
  | cons r rest ih =>
    intro cnt acc res n h
    simp only [fetchAllPlacesGo] at h
    by_cases h1 : r.ok = false
    · rw [if_pos h1] at h
      exact absurd h (by simp)
    · rw [if_neg h1] at h
      by_cases h2 : r.status ≠ "OK" ∧ r.status ≠ "ZERO_RESULTS"
      · rw [if_pos h2] at h
        by_cases h3 : cnt = 0
        · rw [if_pos h3] at h
          exact absurd h (by simp)
        · rw [if_neg h3] at h
          simp only [Except.ok.injEq, Prod.mk.injEq] at h
          omega
      · rw [if_neg h2] at h
        rcases ht : r.next_page_token with _ | tok
        · rw [ht] at h
          simp only [Except.ok.injEq, Prod.mk.injEq] at h
          omega
        · rw [ht] at h
          by_cases h4 : cnt + 1 < maxPages
          · rw [if_pos h4] at h
            have hle := ih (cnt + 1) (acc ++ r.results) res n h
            have hmax : max maxPages (cnt + 1 + 1) = maxPages :=
              max_eq_left (by omega)
            rw [hmax] at hle
            exact le_trans hle (le_max_left _ _)
          · rw [if_neg h4] at h
            simp only [Except.ok.injEq, Prod.mk.injEq] at h
            omega

theorem fetchAllPlaces_first_page_count (r : PageResponse)
    (rest : List PageResponse) (res : List Place) (n : Nat)
    (h : fetchAllPlaces (r :: rest) 1 = Except.ok (res, n)) : n = 1 := by
  unfold fetchAllPlaces at h
  simp only [fetchAllPlacesGo] at h
  by_cases h1 : r.ok = false
  · rw [if_pos h1] at h
    exact absurd h (by simp)
  · rw [if_neg h1] at h
    by_cases h2 : r.status ≠ "OK" ∧ r.status ≠ "ZERO_RESULTS"
    · rw [if_pos h2] at h
      simp at h
    · rw [if_neg h2] at h
      rcases ht : r.next_page_token with _ | tok
      · rw [ht] at h
        simp only [Except.ok.injEq, Prod.mk.injEq] at h
        omega
      · rw [ht, if_neg (by omega)] at h
        simp only [Except.ok.injEq, Prod.mk.injEq] at h
        omega

/-- C3 (amended): the entry point rejects with HTTP 400 exactly when the
query or the location is the empty string (a whitespace-only location is
not rejected); a whitespace-only query broadens the search to
"businesses in <location>" with a page cap of 2, and a query with
non-blank trim searches "<query.trim()> in <location>" with a page cap
of 1; the pagination loop never consumes more pages than the cap (and
with cap 1 it consumes exactly the one first page when it succeeds). -/
theorem postSearchPlan_characterization (query location : String) :
    (postSearchPlan query location = SearchPlan.badRequest ↔
      (query = "" ∨ location = "")) ∧
    (query ≠ "" → location ≠ "" → jsTrim query = "" →
      postSearchPlan query location =
        SearchPlan.search ("businesses in " ++ location) 2) ∧
    (query ≠ "" → location ≠ "" → jsTrim query ≠ "" →
      postSearchPlan query location =
        SearchPlan.search (jsTrim query ++ " in " ++ location) 1) ∧
    (∀ (pages : List PageResponse) (res : List Place) (n maxPages : Nat),
      fetchAllPlaces pages maxPages = Except.ok (res, n) →
      n ≤ max maxPages 1) ∧
    (∀ (r : PageResponse) (rest : List PageResponse) (res : List Place) (n : Nat),
      fetchAllPlaces (r :: rest) 1 = Except.ok (res, n) → n = 1) := by
  refine ⟨?_, ?_, ?_, ?_, ?_⟩
  · constructor
    · intro h
      by_contra hc
      push_neg at hc
      unfold postSearchPlan at h
      rw [if_neg (by tauto)] at h
      by_cases ht : jsTrim query ≠ ""
      · rw [if_pos ht] at h
        exact absurd h (by simp)
      · rw [if_neg ht] at h
        exact absurd h (by simp)
    · intro h
      unfold postSearchPlan
      rw [if_pos h]
  · intro hq hl ht
    unfold postSearchPlan
    rw [if_neg (by tauto), if_neg (by simpa using ht)]
  · intro hq hl ht
    unfold postSearchPlan
    rw [if_neg (by tauto), if_pos ht]
  · intro pages res n maxPages h
    exact fetchAllPlacesGo_count_le maxPages pages 0 [] res n h
  · intro r rest res n h
    exact fetchAllPlaces_first_page_count r rest res n h

/-- C3 witness: the amended characterization evaluated at the blank
query " " with location "Springfield" (broadened two-page search) and at
query "bakery" (single page), plus a concrete one-page pagination run. -/
theorem C3_witness :
    postSearchPlan " " "Springfield" =
      SearchPlan.search ("businesses in " ++ "Springfield") 2 ∧
    postSearchPlan "bakery" "Springfield" =
      SearchPlan.search (jsTrim "bakery" ++ " in " ++ "Springfield") 1 ∧
    (1 : Nat) = 1 :=
  ⟨(postSearchPlan_characterization " " "Springfield").2.1
      (by decide) (by decide) (by decide),
   (postSearchPlan_characterization "bakery" "Springfield").2.2.1
      (by decide) (by decide) (by decide),
   (postSearchPlan_characterization "bakery" "Springfield").2.2.2.2
      { ok := true, status := "OK", results := [], next_page_token := none }
      [] [] 1 rfl⟩

/-! ## Deduplication through a JavaScript Map keyed by a record field -/

theorem lastAssoc_map_pair {κ γ : Type} [DecidableEq κ] (key : γ → κ)
    (l : List γ) (k : κ) :
    lastAssoc (l.map (fun x => (key x, x))) k =
      l.reverse.find? (fun x => key x = k) := by
  unfold lastAssoc
  rw [← List.map_reverse, List.find?_map]
  show Option.map Prod.snd ((l.reverse.find? (fun x => decide (key x = k))).map
    (fun x => (key x, x))) = _
  rcases l.reverse.find? (fun x => decide (key x = k)) with _ | x
  · rfl
  · rfl

/-- The full behaviour of `Array.from(new Map(l.map(x => [key(x), x])).values())`:
the output has pairwise-distinct keys, covers every input key, and keeps,
for each key, the **last** input element carrying it. -/
theorem jsMapValues_by_key {κ γ : Type} [DecidableEq κ] (key : γ → κ)
    (l : List γ) :
    ((jsMapValues (l.map (fun x => (key x, x)))).map key).Nodup ∧
    (∀ x ∈ l, ∃ r ∈ jsMapValues (l.map (fun x => (key x, x))), key r = key x) ∧
    (∀ r ∈ jsMapValues (l.map (fun x => (key x, x))),
      r ∈ l ∧ l.reverse.find? (fun x => key x = key r) = some r) := by
  have hmem_es : ∀ p : κ × γ, p ∈ l.map (fun x => (key x, x)) →
      p.1 = key p.2 ∧ p.2 ∈ l := by
    intro p hp
    rcases List.mem_map.mp hp with ⟨x, hx, rfl⟩
    exact ⟨rfl, hx⟩
  refine ⟨?_, ?_, ?_⟩
  · have h1 : (jsMapValues (l.map (fun x => (key x, x)))).map key =
        keysOf (jsMapOfEntries (l.map (fun x => (key x, x)))) := by
      unfold jsMapValues keysOf
      rw [List.map_map]
      apply List.map_congr_left
      intro p hp
      exact ((hmem_es p (mem_of_mem_jsMapOfEntries hp)).1).symm
    rw [h1]
    exact jsMapOfEntries_keys_nodup _
  · intro x hx
    have hk : key x ∈ keysOf (l.map (fun y => (key y, y))) := by
      unfold keysOf
      rw [List.map_map]
      exact List.mem_map.mpr ⟨x, hx, rfl⟩
    rcases jsMapValues_complete hk with ⟨v, hv_entries, hv_values, -⟩
    have hv := hmem_es (key x, v) (mem_of_mem_jsMapOfEntries hv_entries)
    exact ⟨v, hv_values, hv.1.symm⟩
  · intro r hr
    rcases jsMapValues_mem hr with ⟨k, hk_es, hlast⟩
    have hkey := hmem_es (k, r) hk_es
    refine ⟨hkey.2, ?_⟩
    rw [← lastAssoc_map_pair key l (key r), ← hkey.1]
    exact hlast

/-! ## Claim C2: pagination dedup by placeId -/

/-- Two upstream records sharing a `place_id` but nothing else. -/
def placeDupA : Place :=
  { place_id := "dup", name := "First Cafe", formatted_address := "1 A St",
    rating := none, user_ratings_total := none, types := [] }

/-- The second occurrence of the duplicated `place_id`. -/
def placeDupB : Place :=
  { place_id := "dup", name := "Second Cafe", formatted_address := "2 B St",
    rating := none, user_ratings_total := none, types := [] }

/-- C2, counterexample: the claim says the first occurrence in page
order is kept, but a JavaScript `Map` overwrites on re-insertion, so the
record kept for a duplicated `place_id` is the **last** occurrence. -/
theorem C2_counterexample :
    uniquePlaces [placeDupA, placeDupB] = [placeDupB] ∧
    uniquePlaces [placeDupA, placeDupB] ≠ [placeDupA] ∧
    placeDupA.place_id = placeDupB.place_id ∧
    placeDupA ≠ placeDupB := by
  refine ⟨by decide, by decide, by decide, by decide⟩

/-- C2 (amended): after combining all pagination results the adapter
deduplicates by `placeId` so that exactly one record per `placeId`
remains (output keys are pairwise distinct and cover every input
record's key), and when duplicates occur the record kept is the **last**
occurrence in page order. -/
theorem uniquePlaces_dedup (allPlaces : List Place) :
    ((uniquePlaces allPlaces).map Place.place_id).Nodup ∧
    (∀ p ∈ allPlaces, ∃ r ∈ uniquePlaces allPlaces,
      r.place_id = p.place_id) ∧
    (∀ r ∈ uniquePlaces allPlaces,
      r ∈ allPlaces ∧
        allPlaces.reverse.find? (fun q => q.place_id = r.place_id) = some r) :=
  jsMapValues_by_key Place.place_id allPlaces

/-- C2 witness: on the concrete duplicated input, the surviving record
for key "dup" exists and carries the duplicated id. -/
theorem C2_witness :
    ∃ r ∈ uniquePlaces [placeDupA, placeDupB],
      r.place_id = placeDupA.place_id :=
  (uniquePlaces_dedup [placeDupA, placeDupB]).2.1 placeDupA (by decide)

/-! ## Claim C1: the saved-lead merge -/

/-- The business that gets re-selected after it was already saved. -/
def bizDup : Business :=
  { name := "Acme Plumbing", address := "1 Main St",
    placeId := some "p1", hasWebsite := false }

/-- The lead already stored for `bizDup`, with advanced workflow
metadata. -/
def storedLead : Lead :=
  { business := bizDup, id := "p1", status := "contacted", score := 35,
    addedDate := 100, lastUpdated := 150, lastContactDate := some 150,
    projectId := some "proj1" }

/-- C1, counterexample: re-adding a lead whose composite key is already
in the saved collection replaces the stored lead: the merged collection
carries the fresh metadata (status "new", addedDate 200, no projectId)
instead of the stored "contacted"/100/"proj1" metadata the claim says is
kept. -/
theorem C1_counterexample :
    (addSelectedToSaved [bizDup] [0] [storedLead] 200 none).map Lead.status =
      ["new"] ∧
    (addSelectedToSaved [bizDup] [0] [storedLead] 200 none).map Lead.addedDate =
      [200] ∧
    (addSelectedToSaved [bizDup] [0] [storedLead] 200 none).map Lead.projectId =
      [none] ∧
    storedLead.status = "contacted" ∧
    storedLead.addedDate = 100 ∧
    storedLead.projectId = some "proj1" ∧
    leadKey storedLead = leadKey (mkNewLead bizDup 200 none) := by
  refine ⟨by decide, by decide, by decide, by decide, by decide, by decide, by decide⟩

/-- C1 (amended): the merge contains exactly one lead per composite key
(placeId when truthy, else name_address): output keys are pairwise
distinct and every merged-in lead's key is represented; but on a key
conflict it is the **last** occurrence — the re-added duplicate, whose
fresh workflow metadata replaces the stored lead's — that is kept. -/
theorem addSelectedToSaved_dedup (results : List Business) (selected : List ℕ)
    (savedBusinesses : List Lead) (now : ℕ)
    (selectedProjectId : Option String) :
    ((addSelectedToSaved results selected savedBusinesses now
        selectedProjectId).map leadKey).Nodup ∧
    (∀ l ∈ savedBusinesses ++
        businessesToAdd results selected now selectedProjectId,
      ∃ r ∈ addSelectedToSaved results selected savedBusinesses now
          selectedProjectId, leadKey r = leadKey l) ∧
    (∀ r ∈ addSelectedToSaved results selected savedBusinesses now
        selectedProjectId,
      r ∈ savedBusinesses ++
          businessesToAdd results selected now selectedProjectId ∧
        (savedBusinesses ++
            businessesToAdd results selected now selectedProjectId).reverse.find?
          (fun l => leadKey l = leadKey r) = some r) :=
  jsMapValues_by_key leadKey
    (savedBusinesses ++ businessesToAdd results selected now selectedProjectId)

/-- C1 witness: on the concrete conflicting merge, some surviving lead
carries the stored lead's composite key. -/
theorem C1_witness :
    ∃ r ∈ addSelectedToSaved [bizDup] [0] [storedLead] 200 none,
      leadKey r = leadKey storedLead :=
  (addSelectedToSaved_dedup [bizDup] [0] [storedLead] 200 none).2.1 storedLead
    (List.mem_append_left _ (List.mem_cons_self _ _))

/-! ## Claim C9: the search flow only saves website-less leads -/

/-- C9: every lead record built by `addSelectedToSaved` for insertion
has `hasWebsite = false` — a selected result with `hasWebsite` set is
silently dropped — so every lead of the merged collection either was
already saved or has no website. -/
theorem addSelectedToSaved_only_without_website (results : List Business)
    (selected : List ℕ) (savedBusinesses : List Lead) (now : ℕ)
    (selectedProjectId : Option String) :
    (∀ l ∈ businessesToAdd results selected now selectedProjectId,
      l.business.hasWebsite = false) ∧
    (∀ l ∈ addSelectedToSaved results selected savedBusinesses now
        selectedProjectId,
      l ∈ savedBusinesses ∨ l.business.hasWebsite = false) := by
  have hToAdd : ∀ l ∈ businessesToAdd results selected now selectedProjectId,
      l.business.hasWebsite = false := by
    intro l hl
    unfold businessesToAdd at hl
    rw [List.reduceOption_mem_iff] at hl
    rcases List.mem_map.mp hl with ⟨idx, -, hf⟩
    rcases hres : results.get? idx with _ | b
    · rw [hres] at hf
      exact absurd hf (by simp)
    · rw [hres] at hf
      dsimp only at hf
      by_cases hw : b.hasWebsite = true
      · rw [if_pos hw] at hf
        exact absurd hf (by simp)
      · rw [if_neg hw] at hf
        have hlead : mkNewLead b now selectedProjectId = l := by
          simpa using hf
        rw [← hlead]
        unfold mkNewLead
        simpa using hw
  refine ⟨hToAdd, ?_⟩
  intro l hl
  simp only [addSelectedToSaved] at hl
  rcases jsMapValues_mem hl with ⟨k, hk, -⟩
  rcases List.mem_map.mp hk with ⟨item, hitem, heq⟩
  have hil : item = l := congrArg Prod.snd heq
  rcases List.mem_append.mp (hil ▸ hitem) with h1 | h2
  · exact Or.inl h1
  · exact Or.inr (hToAdd l h2)

/-- A search result flagged as having a website (dropped by the add
operation). -/
def bizSiteFlagged : Business :=
  { name := "Gamma Consulting", address := "3 Up St",
    website := some "https://gamma.example", hasWebsite := true }

/-- A search result without a website (saved by the add operation). -/
def bizNoSite : Business :=
  { name := "Beta Cafe", address := "2 Low St", hasWebsite := false }

/-- C9 witness: with one flagged and one website-less result both
selected, the lead built for the website-less one is covered by both
conjuncts of the theorem. -/
theorem C9_witness :
    (mkNewLead bizNoSite 7 none).business.hasWebsite = false ∧
    (mkNewLead bizNoSite 7 none ∈ ([] : List Lead) ∨
      (mkNewLead bizNoSite 7 none).business.hasWebsite = false) :=
  ⟨(addSelectedToSaved_only_without_website [bizSiteFlagged, bizNoSite]
      [0, 1] [] 7 none).1 _ (List.Mem.head _),
   (addSelectedToSaved_only_without_website [bizSiteFlagged, bizNoSite]
      [0, 1] [] 7 none).2 _ (List.Mem.head _)⟩

/-! ## Claim C10: updateLeadStatus with an unknown id -/

/-- C10: calling `updateLeadStatus` with a lead id that is not in the
stored collection is a silent no-op — the `leadIndex !== -1` guard
fails, so nothing is mutated and nothing is written back (`none`). -/
theorem updateLeadStatus_unknown_id (leads : List Lead)
    (leadId status : String) (now : ℕ)
    (h : ∀ l ∈ leads, l.id ≠ leadId) :
    updateLeadStatus leads leadId status now = none := by
  unfold updateLeadStatus
  have hnone : leads.findIdx? (fun l => l.id = leadId) = none := by
    rw [List.findIdx?_eq_none_iff]
    intro l hl
    simpa using h l hl
  rw [hnone]

/-- A stored lead used to instantiate C10. -/
def leadC10 : Lead :=
  { business := bizNoSite, id := "lead-1", status := "new", score := 45,
    addedDate := 1, lastUpdated := 1 }

/-- C10 witness: updating a missing id on a one-element collection
writes nothing. -/
theorem C10_witness :
    updateLeadStatus [leadC10] "missing-id" "contacted" 9 = none :=
  updateLeadStatus_unknown_id [leadC10] "missing-id" "contacted" 9 (by decide)

/-! ## Claim C8: deleting a project detaches but keeps leads -/

theorem filter_ne_id_length (l : List Project) (pid : String)
    (hnd : (l.map Project.id).Nodup) (hmem : ∃ p ∈ l, p.id = pid) :
    (l.filter (fun p => p.id ≠ pid)).length + 1 = l.length := by
  induction l with
  | nil => simp at hmem
  | cons x xs ih =>
    rw [List.map_cons, List.nodup_cons] at hnd
    by_cases hx : x.id = pid
    · have hxs : ∀ p ∈ xs, p.id ≠ pid := by
        intro p hp hc
        exact hnd.1 (by
          rw [hx, ← hc]
          exact List.mem_map.mpr ⟨p, hp, rfl⟩)
      have hfilter : xs.filter (fun p => p.id ≠ pid) = xs := by
        apply List.filter_eq_self.mpr
        intro p hp
        simpa using hxs p hp
      rw [List.filter_cons_of_neg, hfilter]
      · simp
      · simpa using hx
    · have hmem' : ∃ p ∈ xs, p.id = pid := by
        rcases hmem with ⟨p, hp, hpid⟩
        rcases List.mem_cons.mp hp with rfl | hp'
        · exact absurd hpid hx
        · exact ⟨p, hp', hpid⟩
      rw [List.filter_cons_of_pos (by simpa using hx)]
      rw [List.length_cons, List.length_cons]
      rw [← ih hnd.2 hmem']

/-- C8: deleting an existing project (distinct project ids) removes
exactly that project — one fewer project, and a project survives iff its
id differs — leaves the number of leads unchanged, clears `projectId` on
exactly the leads that carried the deleted id, and leaves every other
field of every lead untouched. -/
theorem handleDeleteProject_frame (projects : List Project)
    (savedBusinesses : List Lead) (pid : String)
    (hnd : (projects.map Project.id).Nodup)
    (hmem : ∃ p ∈ projects, p.id = pid) :
    (handleDeleteProject projects savedBusinesses pid).1.length + 1 =
      projects.length ∧
    (∀ p : Project, p ∈ (handleDeleteProject projects savedBusinesses pid).1 ↔
      (p ∈ projects ∧ p.id ≠ pid)) ∧
    (handleDeleteProject projects savedBusinesses pid).2.length =
      savedBusinesses.length ∧
    (∀ (i : ℕ) (oldLead newLead : Lead),
      savedBusinesses.get? i = some oldLead →
      (handleDeleteProject projects savedBusinesses pid).2.get? i =
        some newLead →
      newLead.business = oldLead.business ∧
      newLead.id = oldLead.id ∧
      newLead.status = oldLead.status ∧
      newLead.score = oldLead.score ∧
      newLead.addedDate = oldLead.addedDate ∧
      newLead.lastUpdated = oldLead.lastUpdated ∧
      newLead.lastContactDate = oldLead.lastContactDate ∧
      newLead.projectId =
        (if oldLead.projectId = some pid then none else oldLead.projectId)) := by
  have hfind : ∃ p0, projects.find? (fun p => p.id = pid) = some p0 := by
    rcases hmem with ⟨p, hp, hpid⟩
    exact Option.isSome_iff_exists.mp
      (List.find?_isSome.mpr ⟨p, hp, by simpa using hpid⟩)
  rcases hfind with ⟨p0, hp0⟩
  unfold handleDeleteProject
  rw [hp0]
  refine ⟨?_, ?_, ?_, ?_⟩
  · exact filter_ne_id_length projects pid hnd hmem
  · intro p
    rw [List.mem_filter]
    constructor
    · rintro ⟨h1, h2⟩
      exact ⟨h1, by simpa using h2⟩
    · rintro ⟨h1, h2⟩
      exact ⟨h1, by simpa using h2⟩
  · exact List.length_map _ _
  · intro i oldLead newLead hold hnew
    rw [List.get?_map, hold] at hnew
    have hnew' : (if oldLead.projectId = some pid
        then { oldLead with projectId := none } else oldLead) = newLead := by
      simpa using hnew
    by_cases hc : oldLead.projectId = some pid
    · rw [if_pos hc] at hnew'
      rw [← hnew']
      simp [hc]
    · rw [if_neg hc] at hnew'
      rw [← hnew']
      simp [hc]

/-- A project and two leads (one tagged with it) instantiating C8. -/
def projectC8 : Project :=
  { id := "proj-1", name := "Springfield push", query := "bakery",
    location := "Springfield", createdAt := 3, leadIds := [] }

/-- The lead tagged with the to-be-deleted project. -/
def leadTagged : Lead :=
  { business := bizNoSite, id := "lead-t", status := "contacted", score := 45,
    addedDate := 1, lastUpdated := 2, lastContactDate := some 2,
    projectId := some "proj-1" }

/-- A lead tagged with a different project. -/
def leadOther : Lead :=
  { business := bizNoSite, id := "lead-o", status := "new", score := 45,
    addedDate := 1, lastUpdated := 1, projectId := some "proj-2" }

/-- C8 witness: deleting "proj-1" from a one-project collection with a
tagged and an untagged lead — project count drops by one, lead count is
preserved, and the tagged lead's fields are preserved except for its
cleared `projectId`. -/
theorem C8_witness :
    (handleDeleteProject [projectC8] [leadTagged, leadOther] "proj-1").1.length + 1 = 1 ∧
    (handleDeleteProject [projectC8] [leadTagged, leadOther] "proj-1").2.length = 2 ∧
    ((handleDeleteProject [projectC8] [leadTagged, leadOther] "proj-1").2.get? 0).map
        Lead.projectId = some none ∧
    ((handleDeleteProject [projectC8] [leadTagged, leadOther] "proj-1").2.get? 1).map
        Lead.projectId = some (some "proj-2") := by
  have h := handleDeleteProject_frame [projectC8] [leadTagged, leadOther] "proj-1"
    (by decide) ⟨projectC8, List.Mem.head _, by decide⟩
  refine ⟨h.1, h.2.2.1.trans (by decide), ?_, ?_⟩
  · have h0 := h.2.2.2 0 leadTagged
    rcases hget : (handleDeleteProject [projectC8] [leadTagged, leadOther] "proj-1").2.get? 0
      with _ | nl
    · have hlen := h.2.2.1
      have : (handleDeleteProject [projectC8] [leadTagged, leadOther] "proj-1").2.length = 2 :=
        hlen.trans (by decide)
      rw [List.get?_eq_none] at hget
      omega
    · have hf := h0 nl (by decide) hget
      show some nl.projectId = some none
      rw [hf.2.2.2.2.2.2.2]
      decide
  · have h1 := h.2.2.2 1 leadOther
    rcases hget : (handleDeleteProject [projectC8] [leadTagged, leadOther] "proj-1").2.get? 1
      with _ | nl
    · have hlen := h.2.2.1
      have : (handleDeleteProject [projectC8] [leadTagged, leadOther] "proj-1").2.length = 2 :=
        hlen.trans (by decide)
      rw [List.get?_eq_none] at hget
      omega
    · have hf := h1 nl (by decide) hget
      show some nl.projectId = some (some "proj-2")
      rw [hf.2.2.2.2.2.2.2]
      decide
